import Mathlib

/-!
Shallow embedding of the availability-and-scheduling engine of the
Bookingbot repository (`src/bot.py`), together with theorems checking the
specification's claims against it.

Modelling conventions:
* UTC instants (`starts_at`, `ends_at`, `created_at`, `now`, job fire
  times) are integers counting minutes.  The Python code stores
  second-precision ISO strings and compares them; the order is the same.
* Calendar dates are integers counting days since 1970-01-01 (rata die
  relative to the Unix epoch); `weekday` matches Python's
  `date.weekday()` (Monday = 0).  Local times of day are minutes after
  midnight.
* Configuration constants are taken at the source defaults
  (`TIME_SLOT_STEP_MIN = 30`, `RESERVATION_DURATION_MIN = 120`,
  `MIN_ADVANCE_DAYS = 1`, `ONLY_TOMORROW = false`,
  `REMINDER_HOURS_BEFORE = 2`, `DAILY_RESERVATION_LIMIT = 2`,
  `AUTO_CONFIRM_MAX_PARTY = 4`).  The weekly open-hours table
  `WEEKLY_RULES` is hard-coded in the source and reproduced here.
* The Supabase REST store is modelled as an explicit `DB` value; each
  `sb_*` accessor is translated to a pure function on `DB` with the same
  filter semantics as its PostgREST query parameters.
* The telegram job queue is a list of named one-shot jobs; a "sent
  immediately" effect is recorded as a list of reservation ids.
-/

namespace Bookingbot

/-- Reservation status, the exact four values used in `bot.py`. -/
inductive Status where
  | pending
  | confirmed
  | canceled
  | stopped
deriving DecidableEq, Repr

/-- A seating unit (row of the `tables` relation): id, display name,
capacity.  Seeded by `db_init.py`, immutable afterwards. -/
structure Table where
  id : Nat
  name : String
  capacity : Nat
deriving DecidableEq, Repr

/-- A row of the `reservations` relation, with the fields `bot.py`
reads/writes.  Instants are UTC minutes. -/
structure Reservation where
  id : Nat
  user_id : Nat
  table_id : Option Nat
  joined_table_id : Option Nat
  rname : String
  phone : String
  party_size : Nat
  set_count : Option Nat
  comment : String
  starts_at : Int
  ends_at : Int
  status : Status
  created_at : Int
deriving DecidableEq, Repr

/-- A row of the `users` relation (requester): id and telegram chat id. -/
structure User where
  id : Nat
  chat_id : Int
deriving DecidableEq, Repr

/-- The backing store: the three relations `bot.py` queries. -/
structure DB where
  tables : List Table
  reservations : List Reservation
  users : List User
deriving DecidableEq, Repr

/-! ### Configuration constants (source defaults) -/

def RESERVATION_DURATION_MIN : Int := 120
def TIME_SLOT_STEP_MIN : Nat := 30
def MIN_ADVANCE_DAYS : Int := 1
def ONLY_TOMORROW : Bool := false
/-- Reminder lead time in minutes (`timedelta(hours=REMINDER_HOURS_BEFORE)`
with `REMINDER_HOURS_BEFORE = 2`). -/
def REMINDER_LEAD_MIN : Int := 120
def DAILY_RESERVATION_LIMIT : Nat := 2
def AUTO_CONFIRM_MAX_PARTY : Nat := 4

/-! ### Calendar rules -/

/-- `WEEKLY_RULES` from `bot.py`: weekday (Monday = 0) to
(open time, last booking time), both minutes after midnight.
16:00 = 960, 22:30 = 1350, 23:30 = 1410, 14:00 = 840.
Every weekday is present in the source table; the lookup returns `none`
for an absent weekday (`WEEKLY_RULES.get(d.weekday(), (None, None))`). -/
def WEEKLY_RULES : Nat → Option (Nat × Nat)
  | 0 => some (960, 1350)
  | 1 => some (960, 1350)
  | 2 => some (960, 1350)
  | 3 => some (960, 1350)
  | 4 => some (960, 1410)
  | 5 => some (840, 1410)
  | 6 => some (840, 1350)
  | _ => none

/-- Python `date.weekday()` for a day number relative to 1970-01-01,
which was a Thursday (weekday 3). -/
def weekday (d : Int) : Nat := ((d + 3) % 7).toNat

/-- The slot-generation loop of `_slots_for_date`:
`while cur_dt <= last_dt: slots.append(cur_dt.time()); cur_dt += step`
with `step = timedelta(minutes=TIME_SLOT_STEP_MIN)`. -/
def slotsLoop (cur last : Nat) : List Nat :=
  if cur ≤ last then cur :: slotsLoop (cur + TIME_SLOT_STEP_MIN) last else []
termination_by last + 1 - cur
decreasing_by simp_arith [TIME_SLOT_STEP_MIN]; omega

/-- `_slots_for_date` from `bot.py`, with the weekly-rules table passed
explicitly (it is module-level configuration in the source).  Note: in
Python 3 every `datetime.time` value is truthy, so
`if not open_t or not last_t` is equivalent to the lookup being absent. -/
def slots_for_date (rules : Nat → Option (Nat × Nat)) (d : Int) : List Nat :=
  match rules (weekday d) with
  | none => []
  | some (open_t, last_t) => slotsLoop open_t last_t

/-- `_date_choices` from `bot.py`, with `today` passed explicitly (the
source reads the clock).  With `ONLY_TOMORROW` false it returns ten
consecutive dates starting at `today + MIN_ADVANCE_DAYS`; the block-list
is not consulted. -/
def date_choices (today : Int) : List Int :=
  let first := today + MIN_ADVANCE_DAYS
  if ONLY_TOMORROW then [first]
  else (List.range 10).map (fun i => first + (i : Int))

/-! ### Date parsing (`parse_date`, i.e. `datetime.strptime(text, "%d.%m.%Y")`) -/

def isLeap (y : Int) : Bool := (y % 4 == 0 && y % 100 != 0) || y % 400 == 0

def daysInMonth (y : Int) (m : Nat) : Nat :=
  match m with
  | 1 => 31 | 2 => if isLeap y then 29 else 28 | 3 => 31 | 4 => 30
  | 5 => 31 | 6 => 30 | 7 => 31 | 8 => 31
  | 9 => 30 | 10 => 31 | 11 => 30 | 12 => 31
  | _ => 0

/-- Civil date (y, m, d) to days since 1970-01-01 (standard civil-calendar
day-count algorithm, exact for all dates the parser accepts). -/
def daysFromCivil (y : Int) (m : Nat) (d : Nat) : Int :=
  let y' : Int := if m ≤ 2 then y - 1 else y
  let era : Int := (if 0 ≤ y' then y' else y' - 399) / 400
  let yoe : Int := y' - era * 400
  let mp : Int := if 2 < m then (m : Int) - 3 else (m : Int) + 9
  let doy : Int := (153 * mp + 2) / 5 + (d : Int) - 1
  let doe : Int := yoe * 365 + yoe / 4 - yoe / 100 + doy
  era * 146097 + doe - 719468

/-- Python `str.strip()` on a character list. -/
def trimChars (cs : List Char) : List Char :=
  ((cs.dropWhile Char.isWhitespace).reverse.dropWhile Char.isWhitespace).reverse

/-- Split a character list on a separator character (like `str.split`,
which the `%d.%m.%Y` format effectively performs on the two dots). -/
def splitOnChar (sep : Char) : List Char → List (List Char)
  | [] => [[]]
  | c :: rest =>
    let r := splitOnChar sep rest
    if c = sep then [] :: r
    else
      match r with
      | [] => [[c]]
      | h :: t => (c :: h) :: t

/-- Digit characters to the number they denote. -/
def digitsToNat (cs : List Char) : Nat :=
  cs.foldl (fun acc c => acc * 10 + (c.toNat - 48)) 0

def isDigits (cs : List Char) : Bool := !cs.isEmpty && cs.all Char.isDigit

/-- `parse_date` from `bot.py`: `strptime(text.strip(), "%d.%m.%Y")`,
returning `none` on `ValueError`.  `%d`/`%m` accept one or two digits,
`%Y` up to four; day and month are validated against the civil
calendar. -/
def parse_date (text : String) : Option Int :=
  match splitOnChar '.' (trimChars text.data) with
  | [ds, ms, ys] =>
    if isDigits ds && ds.length ≤ 2 && isDigits ms && ms.length ≤ 2 &&
       isDigits ys && ys.length ≤ 4 then
      let d := digitsToNat ds
      let m := digitsToNat ms
      let y := digitsToNat ys
      if 1 ≤ m && m ≤ 12 && 1 ≤ d && d ≤ daysInMonth (y : Int) m then
        some (daysFromCivil (y : Int) m d)
      else none
    else none
  | _ => none

/-! ### The date-entry step (`book_date`) -/

/-- The reply `book_date` sends (identified by branch, not by text). -/
inductive BookDateReply where
  | blockedDate
  | badFormat
  | tooEarly
  | onlyTomorrow
  | dayClosed
  | askParty
deriving DecidableEq, Repr

/-- `book_date` from `bot.py` as a pure step: given today's local date,
the `BLOCKED_DATES` configuration strings, the stored conversation date
(`context.user_data["date"]`) and the submitted text, it returns the
reply branch taken and the new stored date.  The branch order follows the
source exactly: blocked-list equality check first, then format check,
then the advance-window checks, then slot emptiness. -/
def book_date (today : Int) (blocked : List String) (ud : Option Int)
    (text : String) : BookDateReply × Option Int :=
  let d := parse_date text
  let min_date := today + MIN_ADVANCE_DAYS
  if (blocked.map parse_date).contains d then (.blockedDate, ud)
  else
    match d with
    | none => (.badFormat, ud)
    | some dv =>
      if dv < min_date then (.tooEarly, ud)
      else if ONLY_TOMORROW && dv ≠ min_date then (.onlyTomorrow, ud)
      else if slots_for_date WEEKLY_RULES dv = [] then (.dayClosed, ud)
      else (.askParty, some dv)

/-! ### Storage accessors (`sb_*`) -/

/-- `sb_reserved_table_ids`: ids of tables held in `[starts, ends)` by
reservations with status pending/confirmed, collecting both `table_id`
and `joined_table_id`.  The PostgREST filters are
`status=in.(pending,confirmed)`, `starts_at=lt.ends`, `ends_at=gt.starts`;
the Python loop adds each non-null id to a set, modelled here as the
concatenation of the non-null ids of every matching row. -/
def sb_reserved_table_ids (db : DB) (starts ends_ : Int) : List Nat :=
  (db.reservations.filter (fun r =>
      (r.status == .pending || r.status == .confirmed) &&
      r.starts_at < ends_ && starts < r.ends_at)).flatMap
    (fun r => r.table_id.toList ++ r.joined_table_id.toList)

/-- Order on tables used by the `order=capacity.asc` query parameter. -/
def capLE (a b : Table) : Prop := a.capacity ≤ b.capacity

instance : DecidableRel capLE := fun a b => Nat.decLe a.capacity b.capacity

instance : IsTotal Table capLE := ⟨fun a b => Nat.le_total a.capacity b.capacity⟩

instance : IsTrans Table capLE := ⟨fun _ _ _ => Nat.le_trans⟩

/-- The `tables` query of `sb_find_available_table`:
`capacity=gte.party_size, order=capacity.asc` (ties in an
implementation-defined stable order; modelled as a stable sort of the
stored row order). -/
def tablesByCapacity (db : DB) (party_size : Nat) : List Table :=
  (db.tables.filter (fun t => party_size ≤ t.capacity)).insertionSort capLE

/-- `sb_find_available_table`: first table, smallest capacity first, whose
id is not in the held set; `none` when every candidate is held. -/
def sb_find_available_table (db : DB) (party_size : Nat)
    (starts ends_ : Int) : Option Table :=
  (tablesByCapacity db party_size).find?
    (fun t => !((sb_reserved_table_ids db starts ends_).contains t.id))

/-- `sb_count_reservations_in_day`: counts reservations with
`status=in.(confirmed,pending)` and `created_at` in
`[day_start, day_end)`, optionally filtered to one user.  (Note: the
query does NOT include status `stopped`, although the function's own
docstring says pending/confirmed/stopped are counted.) -/
def sb_count_reservations_in_day (db : DB) (day_start day_end : Int)
    (user_id : Option Nat) : Nat :=
  (db.reservations.filter (fun r =>
      (r.status == .confirmed || r.status == .pending) &&
      day_start ≤ r.created_at && r.created_at < day_end &&
      (match user_id with
       | none => true
       | some u => r.user_id == u))).length

/-- `sb_get_reservation`: first row with the given id, or `none`. -/
def sb_get_reservation (db : DB) (res_id : Nat) : Option Reservation :=
  db.reservations.find? (fun r => r.id == res_id)

/-- `sb_update_reservation`: PATCH with filter `id=eq.res_id`, updating
every matching row with `f`. -/
def sb_update_reservation (db : DB) (res_id : Nat)
    (f : Reservation → Reservation) : DB :=
  { db with reservations :=
      db.reservations.map (fun r => if r.id == res_id then f r else r) }

/-- `sb_get_user`: first user row with the given id, or `none`. -/
def sb_get_user (db : DB) (user_id : Nat) : Option User :=
  db.users.find? (fun u => u.id == user_id)

/-- `sb_get_confirmed_future`: reservations with `status=eq.confirmed`
and `starts_at=gt.now`. -/
def sb_get_confirmed_future (db : DB) (now : Int) : List Reservation :=
  db.reservations.filter (fun r => r.status == .confirmed && now < r.starts_at)

/-! ### Reminder scheduler -/

/-- A one-shot job in the telegram job queue.  The source names jobs
`f"reminder_{res_id}"`; since every job this program creates has that
shape, the name is modelled by the reservation id itself. -/
structure Job where
  res_id : Nat
  fireAt : Int
  chat_id : Int
deriving DecidableEq, Repr

/-- Scheduler state: the job queue plus the ids of reservations for which
an immediate reminder message was sent. -/
structure SchedState where
  jobs : List Job
  sent : List Nat
deriving DecidableEq, Repr

/-- The jobs registered under the name `reminder_{i}`
(`job_queue.get_jobs_by_name`). -/
def jobsFor (jobs : List Job) (i : Nat) : List Job :=
  jobs.filter (fun j => j.res_id == i)

/-- `_schedule_or_send_reminder` from `bot.py`: compute
`when = starts - lead`; cancel every job named after this reservation;
if `when <= now < starts` send the reminder immediately; if `now < when`
register a one-shot job at `when`; otherwise do nothing. -/
def schedule_or_send_reminder (st : SchedState) (now : Int) (res_id : Nat)
    (user_chat_id : Int) (starts_utc : Int) : SchedState :=
  if starts_utc - REMINDER_LEAD_MIN ≤ now ∧ now < starts_utc then
    { jobs := st.jobs.filter (fun j => !(j.res_id == res_id)),
      sent := st.sent ++ [res_id] }
  else if now < starts_utc - REMINDER_LEAD_MIN then
    { jobs := st.jobs.filter (fun j => !(j.res_id == res_id)) ++
        [⟨res_id, starts_utc - REMINDER_LEAD_MIN, user_chat_id⟩],
      sent := st.sent }
  else { jobs := st.jobs.filter (fun j => !(j.res_id == res_id)),
         sent := st.sent }

/-- One iteration of the `on_startup` loop body: a reservation whose user
row is missing is skipped (`if not u: continue`), otherwise
`_schedule_or_send_reminder` runs for it. -/
def startup_step (db : DB) (now : Int) (st : SchedState) (r : Reservation) :
    SchedState :=
  match sb_get_user db r.user_id with
  | none => st
  | some u => schedule_or_send_reminder st now r.id u.chat_id r.starts_at

/-- `on_startup` from `bot.py`: scan confirmed future reservations and
re-arm (or immediately fire) a reminder for each. -/
def on_startup (db : DB) (st0 : SchedState) (now : Int) : SchedState :=
  (sb_get_confirmed_future db now).foldl (startup_step db now) st0

/-! ### Reservation lifecycle -/

/-- The reply branch taken by `admin_confirm`. -/
inductive ConfirmReply where
  | notFound
  | alreadyConfirmed
  | noSuitableTable
  | userMissing
  | ok (assigned : Option Nat)
deriving DecidableEq, Repr

/-- Observable outcome of one `admin_confirm` run: the store and
scheduler afterwards, whether the Availability Resolver was queried,
whether reminder scheduling ran, whether the user notification was
attempted, and the reply branch. -/
structure ConfirmResult where
  db : DB
  sched : SchedState
  queriedAvailability : Bool
  scheduledReminder : Bool
  notifiedUser : Bool
  reply : ConfirmReply
deriving DecidableEq, Repr

/-- The tail of `admin_confirm` after the status update: look up the
user from the ORIGINAL row; if missing, reply and stop before scheduling;
otherwise run `_schedule_or_send_reminder` and notify the user. -/
def admin_confirm_tail (db' : DB) (sched : SchedState) (now : Int)
    (res_id : Nat) (row : Reservation) (queried : Bool)
    (assigned : Option Nat) : ConfirmResult :=
  match sb_get_user db' row.user_id with
  | none => ⟨db', sched, queried, false, false, .userMissing⟩
  | some u =>
    let sched' := schedule_or_send_reminder sched now res_id u.chat_id row.starts_at
    ⟨db', sched', queried, true, true, .ok assigned⟩

/-- `admin_confirm` from `bot.py` (the part after the admin/args guards):
not-found and already-confirmed are no-ops; with no table bound the
resolver is re-run (failing the operation, store untouched, when it finds
nothing); on success the row is updated to confirmed (binding the found
table when one was resolved) and the reminder/notification tail runs. -/
def admin_confirm (db : DB) (sched : SchedState) (now : Int)
    (res_id : Nat) : ConfirmResult :=
  match sb_get_reservation db res_id with
  | none => ⟨db, sched, false, false, false, .notFound⟩
  | some row =>
    if row.status = .confirmed then
      ⟨db, sched, false, false, false, .alreadyConfirmed⟩
    else
      let starts := row.starts_at
      let ends_ := starts + RESERVATION_DURATION_MIN
      match row.table_id with
      | none =>
        match sb_find_available_table db row.party_size starts ends_ with
        | none => ⟨db, sched, true, false, false, .noSuitableTable⟩
        | some t =>
          let db' := sb_update_reservation db res_id
            (fun r => { r with table_id := some t.id, status := .confirmed })
          admin_confirm_tail db' sched now res_id row true (some t.id)
      | some _ =>
        let db' := sb_update_reservation db res_id
          (fun r => { r with status := .confirmed })
        admin_confirm_tail db' sched now res_id row false none

/-- The reply branch taken by `admin_cancel`. -/
inductive CancelReply where
  | notFound
  | alreadyCanceled
  | ok
deriving DecidableEq, Repr

/-- `admin_cancel` from `bot.py` (after the admin/args guards): not-found
and already-canceled are no-ops; any other status is set to canceled and
the user is notified when their row exists (send failures are caught). -/
def admin_cancel (db : DB) (res_id : Nat) : DB × CancelReply :=
  match sb_get_reservation db res_id with
  | none => (db, .notFound)
  | some row =>
    if row.status = .canceled then (db, .alreadyCanceled)
    else
      (sb_update_reservation db res_id (fun r => { r with status := .canceled }), .ok)

/-! ### Creation (`confirm_callback` after the user pressed confirm) -/

/-- `RES_LIMIT_SCOPE` configuration. -/
inductive LimitScope where
  | global
  | perUser
deriving DecidableEq, Repr

/-- Outcome of the creation step. -/
inductive CreateOutcome where
  | limitReached
  | created (row : Reservation)
deriving DecidableEq, Repr

/-- The id the store generates for a new reservation row. -/
def freshId (db : DB) : Nat :=
  (db.reservations.map (fun r => r.id)).foldr max 0 + 1

/-- The creation core of `confirm_callback` (after `sb_ensure_user`):
count today's reservations (restricted to the requester when the scope is
per-user) and reject when the daily cap is reached; otherwise run the
Availability Resolver, auto-confirm iff the party fits the auto-confirm
cap AND a table was found, and insert the row with the found table (if
any) bound.  `day_start`/`day_end` are the UTC bounds of the CURRENT
local calendar day, as computed at line 614 of the source. -/
def confirm_create (db : DB) (scope : LimitScope) (user_id : Nat)
    (party : Nat) (set_count : Option Nat) (nm ph cm : String)
    (starts ends_ : Int) (day_start day_end : Int) (created_at : Int) :
    DB × CreateOutcome :=
  let limit_user := if scope = .perUser then some user_id else none
  let current_count := sb_count_reservations_in_day db day_start day_end limit_user
  if DAILY_RESERVATION_LIMIT ≤ current_count then (db, .limitReached)
  else
    let table := sb_find_available_table db party starts ends_
    let should_auto_confirm := party ≤ AUTO_CONFIRM_MAX_PARTY && table.isSome
    let status := if should_auto_confirm then Status.confirmed else Status.pending
    let row : Reservation :=
      { id := freshId db, user_id := user_id,
        table_id := table.map (fun t => t.id), joined_table_id := none,
        rname := nm, phone := ph, party_size := party, set_count := set_count,
        comment := cm, starts_at := starts, ends_at := ends_, status := status,
        created_at := created_at }
    ({ db with reservations := db.reservations ++ [row] }, .created row)

/-- Well-formed store: reservation ids are distinct and every reservation
references an existing user row (spec §3: a reservation has an owning
requester reference; rows are only created through `sb_ensure_user`). -/
def WFdb (db : DB) : Prop :=
  (db.reservations.map (fun r => r.id)).Nodup ∧
  ∀ r ∈ db.reservations, ∃ u, sb_get_user db r.user_id = some u

/-! ### Derived observations used in the claim statements -/

/-- A table id is held during `[starts, ends)`: some reservation with
status pending or confirmed overlaps the interval (strict half-open
overlap) and carries the id as its table or joined table. -/
def HeldDuring (db : DB) (starts ends_ : Int) (tid : Nat) : Prop :=
  ∃ r ∈ db.reservations,
    (r.status = .pending ∨ r.status = .confirmed) ∧
    r.starts_at < ends_ ∧ starts < r.ends_at ∧
    (r.table_id = some tid ∨ r.joined_table_id = some tid)

/-- Status of the reservation with a given id, as stored. -/
def resStatus (db : DB) (res_id : Nat) : Option Status :=
  (sb_get_reservation db res_id).map (fun r => r.status)

/-- Bound table of the reservation with a given id, as stored. -/
def resTable (db : DB) (res_id : Nat) : Option (Option Nat) :=
  (sb_get_reservation db res_id).map (fun r => r.table_id)

/-- The daily-limit test of `confirm_callback`
(`current_count >= DAILY_RESERVATION_LIMIT`). -/
def exceeds_daily_limit (db : DB) (day_start day_end : Int)
    (user_id : Option Nat) : Bool :=
  DAILY_RESERVATION_LIMIT ≤ sb_count_reservations_in_day db day_start day_end user_id

/-- Comparison definition following the SPEC's words for the daily-limit
count: all NON-CANCELED reservations (status pending, confirmed, or
stopped) created within the day window, optionally restricted to one
requester.  Kept separate from `sb_count_reservations_in_day` (the
source's query), to compare the two. -/
def spec_count_non_canceled (db : DB) (day_start day_end : Int)
    (user_id : Option Nat) : Nat :=
  (db.reservations.filter (fun r =>
      !(r.status == .canceled) &&
      day_start ≤ r.created_at && r.created_at < day_end &&
      (match user_id with
       | none => true
       | some u => r.user_id == u))).length

/-! ### Concrete fixtures used by witnesses and counterexamples -/

/-- A reservation value with neutral fields, to be overridden per test. -/
def baseRes : Reservation :=
  { id := 1, user_id := 1, table_id := none, joined_table_id := none,
    rname := "Ann", phone := "+375123456789", party_size := 2,
    set_count := none, comment := "", starts_at := 0, ends_at := 120,
    status := .pending, created_at := 0 }

/-- Fixture for C1: table 1 (capacity 2) is held over [0, 120) by a
pending reservation; table 2 (capacity 4) is free. -/
def dbC1 : DB :=
  { tables := [⟨1, "T1", 2⟩, ⟨2, "T2", 4⟩],
    reservations := [{ baseRes with table_id := some 1 }],
    users := [⟨1, 100⟩] }

/-- Fixture for C2: reservation 1 is canceled (table bound), reservation
2 is stopped. -/
def dbC2 : DB :=
  { tables := [⟨1, "T1", 2⟩],
    reservations :=
      [{ baseRes with table_id := some 1, status := .canceled },
       { baseRes with id := 2, status := .stopped }],
    users := [⟨1, 100⟩] }

/-- Fixture for C4: two reservations with status stopped created inside
the day window [0, 10). -/
def dbC4 : DB :=
  { tables := [],
    reservations :=
      [{ baseRes with status := .stopped, created_at := 5 },
       { baseRes with id := 2, status := .stopped, created_at := 6 }],
    users := [⟨1, 100⟩] }

/-- Fixture for C5/C6/C7: one free table of capacity 4, no reservations
yet, one user. -/
def dbC5 : DB :=
  { tables := [⟨1, "T1", 4⟩], reservations := [], users := [⟨1, 100⟩] }

/-- Fixture for C6: a pending reservation with no table bound, party 2,
start 1000; table 1 (capacity 4) is free. -/
def dbC6 : DB :=
  { tables := [⟨1, "T1", 4⟩],
    reservations := [{ baseRes with starts_at := 1000, ends_at := 1120 }],
    users := [⟨1, 100⟩] }

/-- Fixture for C7: reservation 1 confirmed starting at 1000, reservation
2 pending starting at 1000. -/
def dbC7 : DB :=
  { tables := [],
    reservations :=
      [{ baseRes with starts_at := 1000, ends_at := 1120, status := .confirmed },
       { baseRes with id := 2, starts_at := 1000, ends_at := 1120 }],
    users := [⟨1, 100⟩] }

/-! ## Lemmas about the slot-generation loop -/

theorem slotsLoop_mem {cur last x : Nat} (hx : x ∈ slotsLoop cur last) :
    cur ≤ x ∧ x ≤ last ∧ TIME_SLOT_STEP_MIN ∣ (x - cur) := by
  rw [slotsLoop] at hx
  split at hx
  · rcases List.mem_cons.mp hx with rfl | hx'
    · exact ⟨le_refl _, by assumption, by simp⟩
    · have ih := slotsLoop_mem hx'
      refine ⟨by omega, ih.2.1, ?_⟩
      obtain ⟨k, hk⟩ := ih.2.2
      exact ⟨k + 1, by
        have h1 := ih.1
        simp [TIME_SLOT_STEP_MIN] at hk h1 ⊢
        omega⟩
  · cases hx
termination_by last + 1 - cur
decreasing_by simp_arith [TIME_SLOT_STEP_MIN]; omega

theorem slotsLoop_chain (cur last : Nat) :
    List.Chain' (· < ·) (slotsLoop cur last) := by
  rw [slotsLoop]
  split
  · rw [List.chain'_cons']
    refine ⟨?_, slotsLoop_chain (cur + TIME_SLOT_STEP_MIN) last⟩
    intro y hy
    rw [slotsLoop] at hy
    split at hy
    · simp only [List.head?_cons, Option.mem_def, Option.some.injEq] at hy
      simp [← hy, TIME_SLOT_STEP_MIN]
    · simp at hy
  · exact List.chain'_nil
termination_by last + 1 - cur
decreasing_by simp_arith [TIME_SLOT_STEP_MIN]; omega

theorem slotsLoop_head {cur last : Nat} (h : cur ≤ last) :
    (slotsLoop cur last).head? = some cur := by
  rw [slotsLoop]
  simp [h]

theorem slotsLoop_last_mem {cur last : Nat} (h : cur ≤ last)
    (hd : TIME_SLOT_STEP_MIN ∣ (last - cur)) : last ∈ slotsLoop cur last := by
  rw [slotsLoop, if_pos h]
  rcases Nat.eq_or_lt_of_le h with rfl | hlt
  · exact List.mem_cons_self _ _
  · refine List.mem_cons_of_mem _ (slotsLoop_last_mem ?_ ?_)
    · obtain ⟨k, hk⟩ := hd
      simp only [TIME_SLOT_STEP_MIN] at hk ⊢
      omega
    · obtain ⟨k, hk⟩ := hd
      refine ⟨k - 1, ?_⟩
      simp only [TIME_SLOT_STEP_MIN] at hk ⊢
      omega
termination_by last + 1 - cur
decreasing_by simp_arith [TIME_SLOT_STEP_MIN]; omega

theorem slotsLoop_self (o : Nat) : slotsLoop o o = [o] := by
  rw [slotsLoop, if_pos (le_refl o), slotsLoop,
    if_neg (by simp [TIME_SLOT_STEP_MIN])]

theorem weekday_lt_7 (d : Int) : weekday d < 7 := by
  unfold weekday
  have h1 : 0 ≤ (d + 3) % 7 := Int.emod_nonneg _ (by norm_num)
  have h2 : (d + 3) % 7 < 7 := Int.emod_lt_of_pos _ (by norm_num)
  omega

/-- C8: a date whose weekday has no configured window yields the empty
slot sequence; a date with window (open, last) yields the loop's
sequence, which is strictly increasing, lies in [open, last], consists of
whole step-multiples above open, starts at open, contains last whenever
the step divides the window span, and degenerates to the single slot
[open] when open = last; moreover every window of the venue's configured
`WEEKLY_RULES` satisfies open ≤ last with the span a whole multiple of
the step, so last is always included for the configured table. -/
theorem claim_C8 (rules : Nat → Option (Nat × Nat)) (d : Int) (o l : Nat) :
    (rules (weekday d) = none → slots_for_date rules d = []) ∧
    (rules (weekday d) = some (o, l) → o ≤ l →
      slots_for_date rules d = slotsLoop o l ∧
      List.Chain' (· < ·) (slotsLoop o l) ∧
      (∀ x ∈ slotsLoop o l, o ≤ x ∧ x ≤ l ∧ TIME_SLOT_STEP_MIN ∣ (x - o)) ∧
      (slotsLoop o l).head? = some o ∧
      (TIME_SLOT_STEP_MIN ∣ (l - o) → l ∈ slotsLoop o l) ∧
      (o = l → slotsLoop o l = [o])) ∧
    (∀ o' l', WEEKLY_RULES (weekday d) = some (o', l') →
      o' ≤ l' ∧ TIME_SLOT_STEP_MIN ∣ (l' - o')) := by
  refine ⟨?_, ?_, ?_⟩
  · intro h
    simp [slots_for_date, h]
  · intro h hol
    refine ⟨by simp [slots_for_date, h], slotsLoop_chain o l,
      fun x hx => slotsLoop_mem hx, slotsLoop_head hol,
      fun hd => slotsLoop_last_mem hol hd, ?_⟩
    rintro rfl
    exact slotsLoop_self o
  · intro o' l' h
    have hw := weekday_lt_7 d
    interval_cases h7 : weekday d <;>
      simp [WEEKLY_RULES] at h <;>
      · obtain ⟨rfl, rfl⟩ := h
        exact ⟨by norm_num, by decide⟩

/-- Witness for C8 at a concrete date (day 0, a Thursday, window
16:00-22:30): the slot list is the loop's output, and 22:30 (=1350) is a
generated slot. -/
theorem claim_C8_witness :
    slots_for_date WEEKLY_RULES 0 = slotsLoop 960 1350 ∧
    1350 ∈ slotsLoop 960 1350 := by
  have h := (claim_C8 WEEKLY_RULES 0 960 1350).2.1 (by decide) (by norm_num)
  exact ⟨h.1, h.2.2.2.2.1 (by decide)⟩

/-! ## The date-entry step: blocked dates (C3, C10) -/

theorem book_date_blocked (today : Int) (blocked : List String)
    (ud : Option Int) (text : String)
    (h : parse_date text ∈ blocked.map parse_date) :
    book_date today blocked ud text = (.blockedDate, ud) := by
  unfold book_date
  rw [if_pos]
  rw [List.contains_iff_exists_mem_beq]
  exact ⟨parse_date text, h, by simp⟩

/-- C3 counterexample: with today = 2025-01-01 and the block-list
["02.01.2025"], the blocked date 2025-01-02 parses to day 20090, which
IS an element of the presented `date_choices` sequence: `_date_choices`
never consults the block-list, refuting the presentation-exclusion part
of the claim. -/
theorem claim_C3_counterexample :
    parse_date "02.01.2025" = some (daysFromCivil 2025 1 2) ∧
    daysFromCivil 2025 1 2 ∈ date_choices (daysFromCivil 2025 1 1) := by
  constructor
  · decide
  · decide

/-- C3 (amended): a blocked calendar date is NOT excluded from the
sequence presented by `date_choices`; but a submitted date whose parse
result equals the parse result of a configured blocked entry is rejected
at the date-entry step by the equality check against the block-list
(before the format, advance-window and slot-emptiness checks), with the
stored booking state unchanged. -/
theorem claim_C3 (today : Int) (blocked : List String) (ud : Option Int)
    (text : String)
    (h : parse_date text ∈ blocked.map parse_date) :
    book_date today blocked ud text = (.blockedDate, ud) :=
  book_date_blocked today blocked ud text h

/-- Witness for C3: submitting "25.12.2025" with block-list
["25.12.2025"] is rejected as blocked, state untouched. -/
theorem claim_C3_witness :
    parse_date "25.12.2025" ∈ ["25.12.2025"].map parse_date ∧
    book_date (daysFromCivil 2025 1 1) ["25.12.2025"] none "25.12.2025" =
      (.blockedDate, none) :=
  ⟨by decide, claim_C3 (daysFromCivil 2025 1 1) ["25.12.2025"] none
    "25.12.2025" (by decide)⟩

/-- C10: in `book_date` the blocked-list equality check runs before the
format check and compares `Optional` parse results, so an unparseable
input (parse result `None`) is rejected with the blocked-date message —
not the invalid-format message — whenever some configured blocked entry
is itself unparseable. -/
theorem claim_C10 (today : Int) (blocked : List String) (ud : Option Int)
    (text : String) (ht : parse_date text = none)
    (hb : ∃ e ∈ blocked, parse_date e = none) :
    book_date today blocked ud text = (.blockedDate, ud) := by
  apply book_date_blocked
  rw [ht]
  obtain ⟨e, he, hpe⟩ := hb
  exact List.mem_map.mpr ⟨e, he, hpe⟩

/-- Witness for C10: "abc" does not parse, the block-list entry "xyz"
does not parse either, and the reply is the blocked-date one. -/
theorem claim_C10_witness :
    parse_date "abc" = none ∧ parse_date "xyz" = none ∧
    book_date 0 ["xyz"] none "abc" = (.blockedDate, none) :=
  ⟨by decide, by decide,
    claim_C10 0 ["xyz"] none "abc" (by decide) ⟨"xyz", by simp, by decide⟩⟩

/-! ## Reminder scheduler lemmas (C9) -/

theorem jobsFor_erase (l : List Job) (i : Nat) :
    jobsFor (l.filter (fun j => !(j.res_id == i))) i = [] := by
  simp only [jobsFor, List.filter_filter]
  apply List.filter_eq_nil_iff.mpr
  intro j _
  by_cases h : j.res_id = i <;> simp [h]

theorem jobsFor_erase_other (l : List Job) (i j : Nat) (h : j ≠ i) :
    jobsFor (l.filter (fun x => !(x.res_id == i))) j = jobsFor l j := by
  simp only [jobsFor, List.filter_filter]
  apply List.filter_congr
  intro x _
  by_cases hx : x.res_id = j <;> simp [hx, h]

theorem sched_jobsFor_self (st : SchedState) (now : Int) (i : Nat)
    (c : Int) (s : Int) :
    jobsFor (schedule_or_send_reminder st now i c s).jobs i =
      if now < s - REMINDER_LEAD_MIN then [⟨i, s - REMINDER_LEAD_MIN, c⟩]
      else [] := by
  unfold schedule_or_send_reminder
  by_cases h1 : s - REMINDER_LEAD_MIN ≤ now ∧ now < s
  · rw [if_pos h1, if_neg (by omega)]
    exact jobsFor_erase _ _
  · rw [if_neg h1]
    by_cases h2 : now < s - REMINDER_LEAD_MIN
    · rw [if_pos h2, if_pos h2]
      have he := jobsFor_erase st.jobs i
      simp only [jobsFor, List.filter_append] at he ⊢
      simp [he]
    · rw [if_neg h2, if_neg h2]
      exact jobsFor_erase _ _

theorem sched_jobsFor_other (st : SchedState) (now : Int) (i : Nat)
    (c : Int) (s : Int) (j : Nat) (hj : j ≠ i) :
    jobsFor (schedule_or_send_reminder st now i c s).jobs j =
      jobsFor st.jobs j := by
  unfold schedule_or_send_reminder
  by_cases h1 : s - REMINDER_LEAD_MIN ≤ now ∧ now < s
  · rw [if_pos h1]
    exact jobsFor_erase_other _ _ _ hj
  · rw [if_neg h1]
    by_cases h2 : now < s - REMINDER_LEAD_MIN
    · rw [if_pos h2]
      have he := jobsFor_erase_other st.jobs i j hj
      simp only [jobsFor, List.filter_append] at he ⊢
      simp [he, Ne.symm hj]
    · rw [if_neg h2]
      exact jobsFor_erase_other _ _ _ hj

theorem sched_sent (st : SchedState) (now : Int) (i : Nat) (c : Int)
    (s : Int) :
    (schedule_or_send_reminder st now i c s).sent =
      if s - REMINDER_LEAD_MIN ≤ now ∧ now < s then st.sent ++ [i]
      else st.sent := by
  unfold schedule_or_send_reminder
  split_ifs with h1 h2 <;> rfl

/-- C9: scheduling a reminder twice in succession for the same
reservation id leaves at most one live timer for that id — exactly the
one computed from the second call's start time when its fire time is
still in the future, and none otherwise; any timer from the first call
is cancelled. -/
theorem claim_C9 (st : SchedState) (now1 now2 : Int) (i : Nat)
    (c1 c2 : Int) (s1 s2 : Int) :
    jobsFor (schedule_or_send_reminder
        (schedule_or_send_reminder st now1 i c1 s1) now2 i c2 s2).jobs i =
      (if now2 < s2 - REMINDER_LEAD_MIN then
        [⟨i, s2 - REMINDER_LEAD_MIN, c2⟩] else []) ∧
    (jobsFor (schedule_or_send_reminder
        (schedule_or_send_reminder st now1 i c1 s1) now2 i c2 s2).jobs i).length ≤ 1 := by
  refine ⟨sched_jobsFor_self _ _ _ _ _, ?_⟩
  rw [sched_jobsFor_self]
  split_ifs <;> simp

/-! ## Availability resolver (C1) -/

theorem mem_reserved_iff (db : DB) (s e : Int) (tid : Nat) :
    tid ∈ sb_reserved_table_ids db s e ↔ HeldDuring db s e tid := by
  unfold sb_reserved_table_ids HeldDuring
  simp only [List.mem_flatMap, List.mem_filter, List.mem_append,
    Option.mem_toList, Option.mem_def, Bool.and_eq_true, Bool.or_eq_true,
    beq_iff_eq, decide_eq_true_eq]
  constructor
  · rintro ⟨r, ⟨hr, ⟨hst, hs⟩, he⟩, hid⟩
    exact ⟨r, hr, hst, hs, he, hid⟩
  · rintro ⟨r, hr, hst, hs, he, hid⟩
    exact ⟨r, ⟨hr, ⟨hst, hs⟩, he⟩, hid⟩

/-- `find?` over a list sorted by capacity returns an element of minimal
capacity among those satisfying the predicate. -/
theorem find?_sorted_min {l : List Table}
    (hs : l.Pairwise capLE) {f : Table → Bool}
    {t : Table} (h : l.find? f = some t) :
    ∀ t' ∈ l, f t' = true → t.capacity ≤ t'.capacity := by
  induction l with
  | nil => cases h
  | cons a l ih =>
    by_cases hfa : f a
    · rw [List.find?_cons_of_pos _ hfa, Option.some_inj] at h
      subst h
      intro t' ht' _
      rcases List.mem_cons.mp ht' with rfl | ht'
      · exact le_refl _
      · exact (List.pairwise_cons.mp hs).1 t' ht'
    · rw [List.find?_cons_of_neg _ hfa] at h
      intro t' ht' hft'
      rcases List.mem_cons.mp ht' with rfl | ht'
      · exact absurd hft' (by simpa using hfa)
      · exact ih (List.pairwise_cons.mp hs).2 h t' ht' hft'

/-- The availability predicate of the resolver's loop, in propositional
form: the `for t in tables: if t["id"] not in reserved_ids` test. -/
theorem free_pred_iff (db : DB) (s e : Int) (t : Table) :
    (!((sb_reserved_table_ids db s e).contains t.id)) = true ↔
      ¬ HeldDuring db s e t.id := by
  rw [← mem_reserved_iff]
  simp [List.contains, List.elem_eq_mem]

/-- C1: when `sb_find_available_table` returns a table, that table is a
stored table of sufficient capacity, is not held during the requested
half-open interval by any pending/confirmed reservation (via table id or
joined-table id), and no free sufficient table has smaller capacity
(smallest-fit-first); when it returns none, every stored table of
sufficient capacity is held. -/
theorem claim_C1 (db : DB) (p : Nat) (s e : Int) :
    (∀ t, sb_find_available_table db p s e = some t →
      t ∈ db.tables ∧ p ≤ t.capacity ∧ ¬ HeldDuring db s e t.id ∧
      ∀ t' ∈ db.tables, p ≤ t'.capacity → ¬ HeldDuring db s e t'.id →
        t.capacity ≤ t'.capacity) ∧
    (sb_find_available_table db p s e = none →
      ∀ t ∈ db.tables, p ≤ t.capacity → HeldDuring db s e t.id) := by
  constructor
  · intro t ht
    unfold sb_find_available_table at ht
    have hmem := List.mem_of_find?_eq_some ht
    rw [tablesByCapacity, List.mem_insertionSort, List.mem_filter] at hmem
    have hfree : ¬ HeldDuring db s e t.id := by
      have hp := List.find?_some ht
      exact (free_pred_iff db s e t).mp hp
    refine ⟨hmem.1, by simpa using hmem.2, hfree, ?_⟩
    intro t' ht' hcap hfree'
    have hsorted : (tablesByCapacity db p).Pairwise capLE :=
      List.sorted_insertionSort capLE _
    refine find?_sorted_min hsorted ht t' ?_ ?_
    · rw [tablesByCapacity, List.mem_insertionSort, List.mem_filter]
      exact ⟨ht', by simpa using hcap⟩
    · exact (free_pred_iff db s e t').mpr hfree'
  · intro hn t ht hcap
    unfold sb_find_available_table at hn
    rw [List.find?_eq_none] at hn
    have := hn t (by
      rw [tablesByCapacity, List.mem_insertionSort, List.mem_filter]
      exact ⟨ht, by simpa using hcap⟩)
    by_contra hfree
    exact this ((free_pred_iff db s e t).mpr hfree)

/-- Witness for C1: in `dbC1` (table 1 held over [0, 120), table 2 free)
a party of 2 over [0, 60) gets table 2, which is stored, big enough and
not held. -/
theorem claim_C1_witness :
    (⟨2, "T2", 4⟩ : Table) ∈ dbC1.tables ∧ 2 ≤ (4 : Nat) ∧
    ¬ HeldDuring dbC1 0 60 2 := by
  have h := (claim_C1 dbC1 2 0 60).1 ⟨2, "T2", 4⟩ (by decide)
  exact ⟨h.1, h.2.1, h.2.2.1⟩

/-! ## Daily limit (C4) -/

/-- C4 evaluation at the failing input: `dbC4` holds two reservations
with status `stopped` created inside the day window [0, 10).  The code's
count (query `status=in.(confirmed,pending)`) is 0 and the limit test
reports `false`, while the count the claim (and the function's own
docstring) describes — all non-canceled reservations, including
`stopped` — is 2, which reaches the configured cap of 2.  The claimed
"if and only if" therefore fails: the code never counts `stopped`
reservations. -/
theorem claim_C4_code_eval :
    sb_count_reservations_in_day dbC4 0 10 none = 0 ∧
    spec_count_non_canceled dbC4 0 10 none = 2 ∧
    DAILY_RESERVATION_LIMIT = 2 ∧
    exceeds_daily_limit dbC4 0 10 none = false := by
  refine ⟨by decide, by decide, rfl, by decide⟩

/-! ## Creation and auto-confirmation (C5) -/

/-- C5: when the daily limit is not reached, `confirm_create` appends
exactly one reservation row whose bound table is whatever the
Availability Resolver returned (its id as a hint, or nothing), whose
status is `confirmed` precisely when the party size is within the
auto-confirm cap AND the resolver found a table, and `pending` in every
other case. -/
theorem claim_C5 (db : DB) (scope : LimitScope) (uid party : Nat)
    (sc : Option Nat) (nm ph cm : String) (starts ends_ ds de ca : Int)
    (hcount : sb_count_reservations_in_day db ds de
        (if scope = .perUser then some uid else none) <
      DAILY_RESERVATION_LIMIT) :
    ∃ row : Reservation,
      confirm_create db scope uid party sc nm ph cm starts ends_ ds de ca =
        ({ db with reservations := db.reservations ++ [row] },
          .created row) ∧
      row.table_id =
        (sb_find_available_table db party starts ends_).map (fun t => t.id) ∧
      (row.status = .confirmed ↔
        party ≤ AUTO_CONFIRM_MAX_PARTY ∧
        (sb_find_available_table db party starts ends_).isSome = true) ∧
      (row.status = .confirmed ∨ row.status = .pending) := by
  unfold confirm_create
  rw [if_neg (by omega)]
  refine ⟨_, rfl, rfl, ?_, ?_⟩
  · by_cases hb : (party ≤ AUTO_CONFIRM_MAX_PARTY &&
        (sb_find_available_table db party starts ends_).isSome) = true
    · simp only [hb, if_pos]
      simpa [Bool.and_eq_true] using hb
    · rw [Bool.not_eq_true] at hb
      simp only [hb]
      constructor
      · intro h
        cases h
      · intro h
        rw [Bool.eq_false_iff] at hb
        exact absurd (by simpa [Bool.and_eq_true] using h) hb
  · by_cases hb : (party ≤ AUTO_CONFIRM_MAX_PARTY &&
        (sb_find_available_table db party starts ends_).isSome) = true
    · simp [hb]
    · rw [Bool.not_eq_true] at hb
      simp [hb]

/-- Witness for C5, the auto-confirm scenario of the spec: party 3,
auto-confirm cap 4, a free table of capacity 4 in `dbC5` → the row is
created `confirmed` with table 1 bound. -/
theorem claim_C5_witness :
    ∃ row : Reservation,
      confirm_create dbC5 .global 1 3 none "Ann" "+375123456789" ""
          1000 1120 0 10 5 =
        ({ dbC5 with reservations := dbC5.reservations ++ [row] },
          .created row) ∧
      row.table_id = some 1 ∧ row.status = .confirmed := by
  obtain ⟨row, heq, htab, hiff, _⟩ :=
    claim_C5 dbC5 .global 1 3 none "Ann" "+375123456789" "" 1000 1120 0 10 5
      (by decide)
  refine ⟨row, heq, ?_, ?_⟩
  · rw [htab]
    decide
  · exact hiff.mpr ⟨by decide, by decide⟩

/-! ## Lifecycle transitions (C2, C6) -/

theorem find?_update (l : List Reservation) (i : Nat)
    (f : Reservation → Reservation) (hf : ∀ r, (f r).id = r.id) :
    (l.map (fun r => if r.id == i then f r else r)).find?
        (fun r => r.id == i) =
      (l.find? (fun r => r.id == i)).map f := by
  induction l with
  | nil => rfl
  | cons a l ih =>
    by_cases h : a.id = i
    · rw [List.map_cons, if_pos (by simpa using h),
        List.find?_cons_of_pos _ (by simp [hf, h]),
        List.find?_cons_of_pos _ (by simpa using h)]
      rfl
    · rw [List.map_cons, if_neg (by simpa using h),
        List.find?_cons_of_neg _ (by simpa using h),
        List.find?_cons_of_neg _ (by simpa using h)]
      exact ih

theorem sb_get_update (db : DB) (i : Nat) (f : Reservation → Reservation)
    (hf : ∀ r, (f r).id = r.id) :
    sb_get_reservation (sb_update_reservation db i f) i =
      (sb_get_reservation db i).map f :=
  find?_update db.reservations i f hf

theorem admin_confirm_tail_db (db' : DB) (sched : SchedState) (now : Int)
    (res_id : Nat) (row : Reservation) (q : Bool) (a : Option Nat) :
    (admin_confirm_tail db' sched now res_id row q a).db = db' := by
  unfold admin_confirm_tail
  cases sb_get_user db' row.user_id <;> rfl

/-- C2 (amended): canceled and stopped are NOT terminal.  The only guard
in `admin_confirm` is "already confirmed" and the only guard in
`admin_cancel` is "already canceled", so confirm moves any non-confirmed
reservation with a bound table (canceled and stopped included) to
`confirmed`, and cancel moves any non-canceled reservation (stopped
included) to `canceled`. -/
theorem claim_C2 (db : DB) (sched : SchedState) (now : Int) (i : Nat)
    (row : Reservation) (hrow : sb_get_reservation db i = some row) :
    (row.status ≠ .confirmed → row.table_id ≠ none →
      resStatus (admin_confirm db sched now i).db i = some .confirmed) ∧
    (row.status ≠ .canceled →
      resStatus (admin_cancel db i).1 i = some .canceled) := by
  constructor
  · intro hst htid
    obtain ⟨tid, htid'⟩ := Option.ne_none_iff_exists'.mp htid
    unfold admin_confirm
    rw [hrow]
    simp only [if_neg hst, htid']
    rw [admin_confirm_tail_db]
    unfold resStatus
    rw [sb_get_update db i (fun r => { r with status := .confirmed })
      (fun r => rfl), hrow]
    rfl
  · intro hst
    unfold admin_cancel
    rw [hrow]
    simp only [if_neg hst]
    unfold resStatus
    rw [sb_get_update db i (fun r => { r with status := .canceled })
      (fun r => rfl), hrow]
    rfl

/-- C2 counterexample: in `dbC2` reservation 1 is `canceled` (table
bound) and reservation 2 is `stopped`; running the administrator
`confirm` on 1 leaves it `confirmed`, and `cancel` on 2 leaves it
`canceled` — both terminal states are exited, refuting the claim. -/
theorem claim_C2_counterexample :
    resStatus dbC2 1 = some .canceled ∧
    resStatus (admin_confirm dbC2 ⟨[], []⟩ 0 1).db 1 = some .confirmed ∧
    resStatus dbC2 2 = some .stopped ∧
    resStatus (admin_cancel dbC2 2).1 2 = some .canceled := by
  refine ⟨by decide, by decide, by decide, by decide⟩

/-- Witness for the amended C2, applying it to the stopped reservation 2
of `dbC2` for both operations. -/
theorem claim_C2_witness :
    resStatus (admin_confirm dbC2 ⟨[], []⟩ 0 2).db 2 = some .confirmed ∨
    resStatus (admin_cancel dbC2 2).1 2 = some .canceled := by
  have h := claim_C2 dbC2 ⟨[], []⟩ 0 2
    { baseRes with id := 2, status := .stopped } (by decide)
  exact Or.inr (h.2 (by decide))

theorem admin_confirm_tail_eq (db' : DB) (sched : SchedState) (now : Int)
    (res_id : Nat) (row : Reservation) (q : Bool) (a : Option Nat) (u : User)
    (hu : sb_get_user db' row.user_id = some u) :
    admin_confirm_tail db' sched now res_id row q a =
      ⟨db', schedule_or_send_reminder sched now res_id u.chat_id row.starts_at,
        q, true, true, .ok a⟩ := by
  unfold admin_confirm_tail
  rw [hu]

/-- C6: for a pending reservation with no bound table, `admin_confirm`
re-runs the Availability Resolver; when it finds nothing the operation
fails with the no-suitable-table reply and leaves the store and scheduler
untouched; when it finds a table the row is updated to `confirmed` with
that table bound, the reminder scheduler runs and the user notification
is attempted.  For a non-confirmed reservation that already has a table
bound, `admin_confirm` sets `confirmed`, keeps the bound table, and does
NOT query availability. -/
theorem claim_C6 (db : DB) (sched : SchedState) (now : Int) (i : Nat)
    (row : Reservation) (u : User)
    (hrow : sb_get_reservation db i = some row)
    (hu : sb_get_user db row.user_id = some u) :
    (row.status = .pending → row.table_id = none →
      (sb_find_available_table db row.party_size row.starts_at
          (row.starts_at + RESERVATION_DURATION_MIN) = none →
        admin_confirm db sched now i =
          ⟨db, sched, true, false, false, .noSuitableTable⟩) ∧
      (∀ t, sb_find_available_table db row.party_size row.starts_at
          (row.starts_at + RESERVATION_DURATION_MIN) = some t →
        resStatus (admin_confirm db sched now i).db i = some .confirmed ∧
        resTable (admin_confirm db sched now i).db i = some (some t.id) ∧
        (admin_confirm db sched now i).queriedAvailability = true ∧
        (admin_confirm db sched now i).scheduledReminder = true ∧
        (admin_confirm db sched now i).notifiedUser = true ∧
        (admin_confirm db sched now i).sched =
          schedule_or_send_reminder sched now i u.chat_id row.starts_at ∧
        (admin_confirm db sched now i).reply = .ok (some t.id))) ∧
    (∀ tid, row.status ≠ .confirmed → row.table_id = some tid →
      resStatus (admin_confirm db sched now i).db i = some .confirmed ∧
      resTable (admin_confirm db sched now i).db i = some (some tid) ∧
      (admin_confirm db sched now i).queriedAvailability = false ∧
      (admin_confirm db sched now i).scheduledReminder = true ∧
      (admin_confirm db sched now i).notifiedUser = true) := by
  constructor
  · intro hst htid
    constructor
    · intro hfind
      unfold admin_confirm
      rw [hrow]
      simp only [htid, hfind]
      rw [if_neg (show ¬row.status = Status.confirmed by simp [hst])]
    · intro t hfind
      unfold admin_confirm
      rw [hrow]
      simp only [htid, hfind]
      rw [if_neg (show ¬row.status = Status.confirmed by simp [hst])]
      have hu2 : sb_get_user (sb_update_reservation db i
          (fun r => { r with table_id := some t.id, status := .confirmed }))
          row.user_id = some u := hu
      rw [admin_confirm_tail_eq _ _ _ _ _ _ _ u hu2]
      refine ⟨?_, ?_, rfl, rfl, rfl, rfl, rfl⟩
      · unfold resStatus
        rw [sb_get_update db i
          (fun r => { r with table_id := some t.id, status := .confirmed })
          (fun r => rfl), hrow]
        rfl
      · unfold resTable
        rw [sb_get_update db i
          (fun r => { r with table_id := some t.id, status := .confirmed })
          (fun r => rfl), hrow]
        rfl
  · intro tid hst htid
    unfold admin_confirm
    rw [hrow]
    simp only [htid]
    rw [if_neg hst]
    have hu2 : sb_get_user (sb_update_reservation db i
        (fun r => { r with status := .confirmed }))
        row.user_id = some u := hu
    rw [admin_confirm_tail_eq _ _ _ _ _ _ _ u hu2]
    refine ⟨?_, ?_, rfl, rfl, rfl⟩
    · unfold resStatus
      rw [sb_get_update db i (fun r => { r with status := .confirmed })
        (fun r => rfl), hrow]
      rfl
    · unfold resTable
      rw [sb_get_update db i (fun r => { r with status := .confirmed })
        (fun r => rfl), hrow]
      simp [htid]

/-- Witness for C6 in `dbC6`: the pending unbound reservation 1 (party
2, start 1000) is confirmed by the administrator with table 1 found,
bound, reminder scheduling run and notification attempted. -/
theorem claim_C6_witness :
    resStatus (admin_confirm dbC6 ⟨[], []⟩ 0 1).db 1 = some .confirmed ∧
    resTable (admin_confirm dbC6 ⟨[], []⟩ 0 1).db 1 = some (some 1) ∧
    (admin_confirm dbC6 ⟨[], []⟩ 0 1).queriedAvailability = true ∧
    (admin_confirm dbC6 ⟨[], []⟩ 0 1).scheduledReminder = true ∧
    (admin_confirm dbC6 ⟨[], []⟩ 0 1).notifiedUser = true := by
  have h := (claim_C6 dbC6 ⟨[], []⟩ 0 1
      { baseRes with starts_at := 1000, ends_at := 1120 } ⟨1, 100⟩
      (by decide) (by decide)).1 (by decide) (by decide)
  obtain ⟨h1, h2, h3, h4, h5, -, -⟩ := h.2 ⟨1, "T1", 4⟩ (by decide)
  exact ⟨h1, h2, h3, h4, h5⟩

/-! ## Startup recovery of reminders (C7) -/

theorem startup_step_jobsFor_other (db : DB) (now : Int) (st : SchedState)
    (r : Reservation) (i : Nat) (h : r.id ≠ i) :
    jobsFor (startup_step db now st r).jobs i = jobsFor st.jobs i := by
  unfold startup_step
  cases sb_get_user db r.user_id
  · rfl
  · exact sched_jobsFor_other _ _ _ _ _ _ (Ne.symm h)

theorem startup_step_sent_other (db : DB) (now : Int) (st : SchedState)
    (r : Reservation) (i : Nat) (h : r.id ≠ i) :
    i ∈ (startup_step db now st r).sent ↔ i ∈ st.sent := by
  unfold startup_step
  cases sb_get_user db r.user_id
  · exact Iff.rfl
  · rw [sched_sent]
    split_ifs
    · simp [Ne.symm h]
    · exact Iff.rfl

theorem foldl_frame (db : DB) (now : Int) :
    ∀ (l : List Reservation) (st : SchedState) (i : Nat),
    (∀ r ∈ l, r.id ≠ i) →
    jobsFor ((l.foldl (startup_step db now) st).jobs) i = jobsFor st.jobs i ∧
    ((i ∈ (l.foldl (startup_step db now) st).sent) ↔ i ∈ st.sent) := by
  intro l
  induction l with
  | nil => exact fun st i _ => ⟨rfl, Iff.rfl⟩
  | cons a l ih =>
    intro st i h
    rw [List.foldl_cons]
    have h1 := startup_step_jobsFor_other db now st a i
      (h a (List.mem_cons_self a l))
    have h2 := startup_step_sent_other db now st a i
      (h a (List.mem_cons_self a l))
    have ihr := ih (startup_step db now st a) i
      (fun r hr => h r (List.mem_cons_of_mem a hr))
    exact ⟨ihr.1.trans h1, ihr.2.trans h2⟩

theorem foldl_mem (db : DB) (now : Int) :
    ∀ (l : List Reservation) (st : SchedState) (r : Reservation) (u : User),
    (l.map (fun x => x.id)).Nodup → r ∈ l →
    sb_get_user db r.user_id = some u →
    jobsFor ((l.foldl (startup_step db now) st).jobs) r.id =
      (if now < r.starts_at - REMINDER_LEAD_MIN then
        [⟨r.id, r.starts_at - REMINDER_LEAD_MIN, u.chat_id⟩] else []) ∧
    ((r.id ∈ (l.foldl (startup_step db now) st).sent) ↔
      (r.starts_at - REMINDER_LEAD_MIN ≤ now ∧ now < r.starts_at) ∨
        r.id ∈ st.sent) := by
  intro l
  induction l with
  | nil => exact fun st r u _ hr => absurd hr (List.not_mem_nil r)
  | cons a l ih =>
    intro st r u hnd hr hu
    rw [List.foldl_cons]
    rw [List.map_cons, List.nodup_cons] at hnd
    rcases List.mem_cons.mp hr with rfl | hr'
    · have hnotin : ∀ x ∈ l, x.id ≠ r.id := by
        intro x hx he
        exact hnd.1 (he ▸ List.mem_map_of_mem _ hx)
      have hframe := foldl_frame db now l (startup_step db now st r) r.id hnotin
      constructor
      · rw [hframe.1]
        unfold startup_step
        rw [hu]
        exact sched_jobsFor_self _ _ _ _ _
      · rw [hframe.2]
        unfold startup_step
        rw [hu, sched_sent]
        split_ifs with hc
        · simp [hc]
        · exact ⟨Or.inr, fun h => h.resolve_left hc⟩
    · have hane : a.id ≠ r.id := by
        intro he
        exact hnd.1 (he ▸ List.mem_map_of_mem _ hr')
      have hih := ih (startup_step db now st a) r u hnd.2 hr' hu
      refine ⟨hih.1, hih.2.trans ?_⟩
      rw [startup_step_sent_other db now st a r.id hane]

/-- C7: starting from an empty job queue, the startup recovery pass
re-arms exactly one reminder (named by the reservation id, firing at
`starts_at` minus the lead time) for every stored reservation that is
`confirmed` with a future start, or fires it immediately when the fire
time has already passed; any reservation that is not confirmed or not in
the future gets neither a timer nor an immediate reminder.  (The store is
assumed well-formed: distinct reservation ids and every reservation's
requester row present.) -/
theorem claim_C7 (db : DB) (now : Int) (r : Reservation)
    (hwf : WFdb db) (hr : r ∈ db.reservations) :
    (r.status = .confirmed → now < r.starts_at →
      ∃ u, sb_get_user db r.user_id = some u ∧
        (now < r.starts_at - REMINDER_LEAD_MIN →
          jobsFor (on_startup db ⟨[], []⟩ now).jobs r.id =
            [⟨r.id, r.starts_at - REMINDER_LEAD_MIN, u.chat_id⟩] ∧
          r.id ∉ (on_startup db ⟨[], []⟩ now).sent) ∧
        (r.starts_at - REMINDER_LEAD_MIN ≤ now →
          jobsFor (on_startup db ⟨[], []⟩ now).jobs r.id = [] ∧
          r.id ∈ (on_startup db ⟨[], []⟩ now).sent)) ∧
    (¬(r.status = .confirmed ∧ now < r.starts_at) →
      jobsFor (on_startup db ⟨[], []⟩ now).jobs r.id = [] ∧
      r.id ∉ (on_startup db ⟨[], []⟩ now).sent) := by
  obtain ⟨hnd, husers⟩ := hwf
  constructor
  · intro hst hfut
    obtain ⟨u, hu⟩ := husers r hr
    have hmem : r ∈ sb_get_confirmed_future db now := by
      unfold sb_get_confirmed_future
      rw [List.mem_filter]
      exact ⟨hr, by simp [hst, hfut]⟩
    have hndf : ((sb_get_confirmed_future db now).map (fun x => x.id)).Nodup :=
      hnd.sublist ((List.filter_sublist _).map _)
    have h := foldl_mem db now (sb_get_confirmed_future db now) ⟨[], []⟩ r u
      hndf hmem hu
    unfold on_startup
    refine ⟨u, hu, ?_, ?_⟩
    · intro hlt
      refine ⟨by rw [h.1, if_pos hlt], ?_⟩
      rw [h.2]
      simp only [List.not_mem_nil, or_false]
      omega
    · intro hge
      exact ⟨by rw [h.1, if_neg (by omega)], h.2.mpr (Or.inl ⟨hge, hfut⟩)⟩
  · intro hnq
    have hnotin : ∀ x ∈ sb_get_confirmed_future db now, x.id ≠ r.id := by
      intro x hx he
      unfold sb_get_confirmed_future at hx
      rw [List.mem_filter] at hx
      have hxr : x = r := List.inj_on_of_nodup_map hnd hx.1 hr he
      subst hxr
      exact hnq (by simpa using hx.2)
    have h := foldl_frame db now (sb_get_confirmed_future db now) ⟨[], []⟩
      r.id hnotin
    unfold on_startup
    refine ⟨h.1.trans (by simp [jobsFor]), ?_⟩
    rw [h.2]
    exact List.not_mem_nil _

/-- Witness for C7 at `dbC7` with now = 0: the confirmed reservation 1
(start 1000) gets exactly the timer firing at 880 = 1000 - 120 for chat
100, and the pending reservation 2 gets nothing. -/
theorem claim_C7_witness :
    jobsFor (on_startup dbC7 ⟨[], []⟩ 0).jobs 1 = [⟨1, 880, 100⟩] ∧
    jobsFor (on_startup dbC7 ⟨[], []⟩ 0).jobs 2 = [] ∧
    2 ∉ (on_startup dbC7 ⟨[], []⟩ 0).sent := by
  have hwf : WFdb dbC7 := by
    constructor
    · decide
    · intro r hr
      simp only [dbC7, List.mem_cons, List.not_mem_nil, or_false] at hr
      rcases hr with rfl | rfl
      · exact ⟨⟨1, 100⟩, by decide⟩
      · exact ⟨⟨1, 100⟩, by decide⟩
  have h1 := claim_C7 dbC7 0
    { baseRes with starts_at := 1000, ends_at := 1120, status := .confirmed }
    hwf (by decide)
  have h2 := claim_C7 dbC7 0
    { baseRes with id := 2, starts_at := 1000, ends_at := 1120 }
    hwf (by decide)
  obtain ⟨u, hu, hf, -⟩ := h1.1 rfl (by decide)
  have hueq : u = ⟨1, 100⟩ :=
    Option.some.inj (hu.symm.trans (by decide))
  subst hueq
  have hjob := hf (by decide)
  have hnone := h2.2 (by decide)
  exact ⟨hjob.1, hnone.1, hnone.2⟩

end Bookingbot
